import Mathlib

/-!
Verification of the `lrt` live-reload controller (`main.go`).

This file gives a shallow embedding of the parts of `main.go` that the
specification's claims are about:

* `serveHTTP` — the request gate `blockingProxy.ServeHTTP`,
* `classifyLine` / `watchListedPackages` — the dependency-watching step,
* `debounceRun` — the `debounceCallable` debouncer,
* `rebuild` (with its stages) — the rebuild sequence,
* `selectBoot` / `bootExitBody` / `bootTimeoutBody` — the boot outcome race,
* `parseServicePort` / `runLrt` — service-port allocation across rebuilds,
* `runWithDeferred` / `signalShutdownRun` — the SIGTERM/SIGINT shutdown path.

External effects (the Go toolchain, the kernel's port allocator, the child
process, timers) are modelled as inputs: a `RebuildEnv` records the outcome
of each external call a single `rebuild` makes, and time is modelled as `Nat`
instants.  Machine behaviour that Go leaves nondeterministic (ties in
`select`) is collapsed to a deterministic choice; all theorems about the race
use strict inequalities so that they do not depend on the tie order.
-/

namespace Lrt

/-! ## The request gate (`blockingProxy.ServeHTTP`, main.go:178-197)

`ServeHTTP` acquires the readers–writer lock shared, and while `builtOnce`
is false it repeatedly releases the shared lease, sleeps 100 ms, reacquires
and rechecks.  We model the handler by the sequence of states it observes at
each shared acquisition: `GateObs` is what the handler sees under one shared
lease.  `errorResponse` is a Go byte slice; `none` models `nil`. -/

structure GateObs where
  builtOnce : Bool
  errorResponse : Option String
  deriving DecidableEq, Repr

/-- One externally visible action of the request handler. -/
inductive ProxyEvent where
  /-- The step `proxyLock.RUnlock(); time.Sleep(100ms); proxyLock.RLock()` (main.go:185-187). -/
  | unlockSleepRelock
  /-- The call `w.WriteHeader(status)` (main.go:191; `http.StatusBadGateway = 502`). -/
  | writeHeader (status : Nat)
  /-- The call `w.Write(body)` (main.go:192). -/
  | write (body : String)
  /-- The call `b.proxy.ServeHTTP(w, r)` (main.go:196). -/
  | forwardUpstream
  deriving DecidableEq, Repr

/-- The handler `blockingProxy.ServeHTTP` (main.go:178-197) as a function of the sequence
of gate states observed at successive shared acquisitions.  An empty or
exhausted observation list means the handler is still blocked in the
pre-first-build loop: it has produced no response so far. -/
def serveHTTP : List GateObs → List ProxyEvent
  | [] => []
  | o :: rest =>
    if o.builtOnce then
      match o.errorResponse with
      | some b => [ProxyEvent.writeHeader 502, ProxyEvent.write b]
      | none => [ProxyEvent.forwardUpstream]
    else ProxyEvent.unlockSleepRelock :: serveHTTP rest

/-- C1: while every observed state has `built_once == false` the handler only
ever drops the lease, sleeps and reacquires — it never forwards to the
upstream and never writes any part of a response. -/
theorem serveHTTP_blocks_before_first_build (obs : List GateObs)
    (h : ∀ o ∈ obs, o.builtOnce = false) :
    serveHTTP obs = List.replicate obs.length ProxyEvent.unlockSleepRelock ∧
    ProxyEvent.forwardUpstream ∉ serveHTTP obs ∧
    (∀ st, ProxyEvent.writeHeader st ∉ serveHTTP obs) ∧
    (∀ b, ProxyEvent.write b ∉ serveHTTP obs) := by
  induction obs with
  | nil => simp [serveHTTP]
  | cons o rest ih =>
    have ho : o.builtOnce = false := h o (List.mem_cons_self o rest)
    have hrest : ∀ o ∈ rest, o.builtOnce = false :=
      fun o' ho' => h o' (List.mem_cons_of_mem o ho')
    obtain ⟨h1, h2, h3, h4⟩ := ih hrest
    refine ⟨?_, ?_, ?_, ?_⟩
    · simp [serveHTTP, ho, h1, List.replicate_succ]
    · simp [serveHTTP, ho]
      exact fun hc => h2 hc
    · intro st
      simp [serveHTTP, ho]
      exact fun hc => h3 st hc
    · intro b
      simp [serveHTTP, ho]
      exact fun hc => h4 b hc

/-- Concrete check of `serveHTTP_blocks_before_first_build`. -/
theorem serveHTTP_blocks_before_first_build_witness :
    serveHTTP [⟨false, none⟩, ⟨false, some "e"⟩] =
      List.replicate (List.length [(⟨false, none⟩ : GateObs), ⟨false, some "e"⟩])
        ProxyEvent.unlockSleepRelock ∧
    ProxyEvent.forwardUpstream ∉ serveHTTP [⟨false, none⟩, ⟨false, some "e"⟩] ∧
    (∀ st, ProxyEvent.writeHeader st ∉ serveHTTP [⟨false, none⟩, ⟨false, some "e"⟩]) ∧
    (∀ b, ProxyEvent.write b ∉ serveHTTP [⟨false, none⟩, ⟨false, some "e"⟩]) :=
  serveHTTP_blocks_before_first_build [⟨false, none⟩, ⟨false, some "e"⟩] (by decide)

/-- C2: at the first shared acquisition that observes `built_once == true`,
if `errorResponse` is set (`!= nil`) the handler writes status 502 with
exactly the `errorResponse` bytes as body and never invokes the upstream
proxy; if `errorResponse` is `nil` it forwards the request to the upstream. -/
theorem serveHTTP_after_first_build (pre : List GateObs) (o : GateObs)
    (rest : List GateObs) (hpre : ∀ p ∈ pre, p.builtOnce = false)
    (ho : o.builtOnce = true) :
    (∀ b, o.errorResponse = some b →
      serveHTTP (pre ++ o :: rest) =
        List.replicate pre.length ProxyEvent.unlockSleepRelock ++
          [ProxyEvent.writeHeader 502, ProxyEvent.write b] ∧
      ProxyEvent.forwardUpstream ∉ serveHTTP (pre ++ o :: rest)) ∧
    (o.errorResponse = none →
      serveHTTP (pre ++ o :: rest) =
        List.replicate pre.length ProxyEvent.unlockSleepRelock ++
          [ProxyEvent.forwardUpstream]) := by
  induction pre with
  | nil =>
    refine ⟨fun b hb => ?_, fun hn => ?_⟩
    · simp [serveHTTP, ho, hb]
    · simp [serveHTTP, ho, hn]
  | cons p pre' ih =>
    have hp : p.builtOnce = false := hpre p (List.mem_cons_self p pre')
    have hpre' : ∀ q ∈ pre', q.builtOnce = false :=
      fun q hq => hpre q (List.mem_cons_of_mem p hq)
    obtain ⟨ih1, ih2⟩ := ih hpre'
    refine ⟨fun b hb => ?_, fun hn => ?_⟩
    · obtain ⟨e1, e2⟩ := ih1 b hb
      constructor
      · simp [serveHTTP, hp, List.replicate_succ, e1]
      · simp [serveHTTP, hp]
        exact fun hc => e2 hc
    · simp [serveHTTP, hp, List.replicate_succ, ih2 hn]

/-- Concrete check of `serveHTTP_after_first_build`. -/
theorem serveHTTP_after_first_build_witness :
    (∀ b, (GateObs.mk true (some "diag")).errorResponse = some b →
      serveHTTP ([⟨false, none⟩] ++ ⟨true, some "diag"⟩ :: []) =
        List.replicate (List.length [(⟨false, none⟩ : GateObs)])
          ProxyEvent.unlockSleepRelock ++
          [ProxyEvent.writeHeader 502, ProxyEvent.write b] ∧
      ProxyEvent.forwardUpstream ∉
        serveHTTP ([⟨false, none⟩] ++ ⟨true, some "diag"⟩ :: [])) ∧
    ((GateObs.mk true (some "diag")).errorResponse = none →
      serveHTTP ([⟨false, none⟩] ++ ⟨true, some "diag"⟩ :: []) =
        List.replicate (List.length [(⟨false, none⟩ : GateObs)])
          ProxyEvent.unlockSleepRelock ++ [ProxyEvent.forwardUpstream]) :=
  serveHTTP_after_first_build [⟨false, none⟩] ⟨true, some "diag"⟩ [] (by decide) rfl

/-! ## Dependency watching (`watchListedPackages`, main.go:375-427)

The function splits the build/list output on newlines (after trimming the
whole output, `strings.Split(strings.TrimSpace(output), "\n")`) and walks the
lines.  We model Go's `strings.HasPrefix` and `strings.TrimSpace` directly on
character lists (ASCII white space; the inputs here are toolchain output).
Directory resolution (go-module or GOPATH lookup, main.go:390-412) is an
external lookup; it is a parameter `resolve`, with `""` meaning "no directory"
exactly as `dir` stays `""` in the source. -/

/-- Go `strings.HasPrefix` on character lists (second argument is the
pattern). -/
def listStartsWith : List Char → List Char → Bool
  | _, [] => true
  | [], _ :: _ => false
  | c :: cs, d :: ds => c = d && listStartsWith cs ds

/-- Go `strings.HasPrefix`. -/
def strStartsWith (s pat : String) : Bool :=
  listStartsWith s.data pat.data

/-- ASCII white space as recognised by Go's `strings.TrimSpace`. -/
def goIsSpace (c : Char) : Bool :=
  c = ' ' || c = '\t' || c = '\n' || c = '\x0b' || c = '\x0c' || c = '\r'

/-- Go `strings.TrimSpace`. -/
def goTrimSpace (s : String) : String :=
  String.mk (((s.data.dropWhile goIsSpace).reverse.dropWhile goIsSpace).reverse)

/-- Auxiliary splitter accumulating the current line in reverse. -/
def splitLinesAux : List Char → List Char → List String
  | [], acc => [String.mk acc.reverse]
  | c :: cs, acc =>
    if c = '\n' then String.mk acc.reverse :: splitLinesAux cs []
    else splitLinesAux cs (c :: acc)

/-- Go `strings.Split(s, "\n")`. -/
def splitLines (s : String) : List String :=
  splitLinesAux s.data []

/-- What `watchListedPackages` does with one line of output. -/
inductive LineClass where
  /-- The test `if p == "" ...` (main.go:380-382): the line is dropped with no output. -/
  | silentSkip
  /-- Diagnostic noise (main.go:385-388): echoed to stderr, then `continue`. -/
  | echoSkip
  /-- Any other line: treated as a dependency identifier. -/
  | dependency
  deriving DecidableEq, Repr

/-- The per-line classification performed by the loop body of
`watchListedPackages` (main.go:379-388), in source order of the tests. -/
def classifyLine (p : String) : LineClass :=
  if p = "" then LineClass.silentSkip
  else if strStartsWith p "# " || strStartsWith p "ld:" ||
      goTrimSpace p = "" || strStartsWith p "go:" then LineClass.echoSkip
  else LineClass.dependency

/-- The mutable state the dependency-watching step touches: the
`watchedDir` set (main.go:75), the log of `watcher.Add` invocations
(main.go:415), and the lines echoed to stderr (main.go:386). -/
structure WatchState where
  watched : List String
  addCalls : List String
  stderrLog : List String
  deriving DecidableEq, Repr

/-- One iteration of the loop in `watchListedPackages` (main.go:379-426).
`resolve` models the directory lookup of main.go:390-412; the guard
`dir != "" && !watchedDir[dir]` and the `watcher.Add`/`watchedDir[dir] = true`
pair are main.go:414-424. -/
def processLine (resolve : String → String) (st : WatchState) (p : String) :
    WatchState :=
  match classifyLine p with
  | LineClass.silentSkip => st
  | LineClass.echoSkip => { st with stderrLog := st.stderrLog ++ [p] }
  | LineClass.dependency =>
    let dir := resolve p
    if dir ≠ "" ∧ dir ∉ st.watched then
      { st with watched := dir :: st.watched, addCalls := st.addCalls ++ [dir] }
    else st

/-- The loop of `watchListedPackages` over an already-split line list. -/
def processLines (resolve : String → String) (st : WatchState)
    (lines : List String) : WatchState :=
  lines.foldl (processLine resolve) st

/-- The function `watchListedPackages` (main.go:375-427). -/
def watchListedPackages (resolve : String → String) (st : WatchState)
    (output : String) : WatchState :=
  processLines resolve st (splitLines (goTrimSpace output))

theorem processLine_watched_mono (resolve : String → String) (st : WatchState)
    (p : String) : st.watched ⊆ (processLine resolve st p).watched := by
  unfold processLine
  cases hc : classifyLine p
  · exact fun a ha => ha
  · exact fun a ha => ha
  · simp only []
    split
    · exact fun a ha => List.mem_cons_of_mem _ ha
    · exact fun a ha => ha

theorem processLines_watched_mono (resolve : String → String)
    (lines : List String) : ∀ st : WatchState,
    st.watched ⊆ (processLines resolve st lines).watched := by
  induction lines with
  | nil => intro st; exact fun a ha => ha
  | cons p rest ih =>
    intro st
    exact fun a ha =>
      ih (processLine resolve st p) (processLine_watched_mono resolve st p ha)

theorem processLine_addCalls_extends (resolve : String → String)
    (st : WatchState) (p : String) :
    ∃ t, (processLine resolve st p).addCalls = st.addCalls ++ t := by
  unfold processLine
  cases hc : classifyLine p
  · exact ⟨[], by simp⟩
  · exact ⟨[], by simp⟩
  · simp only []
    split
    · exact ⟨[resolve p], rfl⟩
    · exact ⟨[], by simp⟩

theorem processLines_addCalls_extends (resolve : String → String)
    (lines : List String) : ∀ st : WatchState,
    ∃ t, (processLines resolve st lines).addCalls = st.addCalls ++ t := by
  induction lines with
  | nil => intro st; exact ⟨[], by simp [processLines]⟩
  | cons p rest ih =>
    intro st
    obtain ⟨t₁, h₁⟩ := processLine_addCalls_extends resolve st p
    obtain ⟨t₂, h₂⟩ := ih (processLine resolve st p)
    exact ⟨t₁ ++ t₂, by simp [processLines] at h₂ ⊢; rw [h₂, h₁, List.append_assoc]⟩

/-- After processing a dependency line its resolved directory is watched. -/
theorem processLine_resolved_mem (resolve : String → String) (st : WatchState)
    (p : String) (hdep : classifyLine p = LineClass.dependency)
    (hne : resolve p ≠ "") : resolve p ∈ (processLine resolve st p).watched := by
  unfold processLine
  rw [hdep]
  simp only []
  split
  · exact List.mem_cons_self _ _
  · rename_i hcond
    have : resolve p ∈ st.watched := by
      by_contra hmem
      exact hcond ⟨hne, hmem⟩
    exact this

/-- If a dependency line's directory is already watched (or the line is not a
dependency line at all), one loop iteration leaves `watchedDir` and the
`watcher.Add` log untouched. -/
theorem processLine_covered (resolve : String → String) (st : WatchState)
    (p : String)
    (h : classifyLine p = LineClass.dependency → resolve p ≠ "" →
      resolve p ∈ st.watched) :
    (processLine resolve st p).watched = st.watched ∧
    (processLine resolve st p).addCalls = st.addCalls := by
  unfold processLine
  cases hc : classifyLine p
  · exact ⟨rfl, rfl⟩
  · exact ⟨rfl, rfl⟩
  · simp only []
    split
    · rename_i hcond
      exact absurd (h hc hcond.1) hcond.2
    · exact ⟨rfl, rfl⟩

/-- After one pass over a line list, every dependency line's directory is in
the watched set. -/
theorem processLines_all_covered (resolve : String → String)
    (lines : List String) : ∀ st : WatchState, ∀ p ∈ lines,
    classifyLine p = LineClass.dependency → resolve p ≠ "" →
    resolve p ∈ (processLines resolve st lines).watched := by
  induction lines with
  | nil => intro st p hp; exact absurd hp (List.not_mem_nil p)
  | cons q rest ih =>
    intro st p hp hdep hne
    rcases List.mem_cons.mp hp with hpq | hpr
    · subst hpq
      exact processLines_watched_mono resolve rest (processLine resolve st p)
        (processLine_resolved_mem resolve st p hdep hne)
    · exact ih (processLine resolve st q) p hpr hdep hne

theorem processLines_covered_fix (resolve : String → String)
    (lines : List String) : ∀ st : WatchState,
    (∀ p ∈ lines, classifyLine p = LineClass.dependency → resolve p ≠ "" →
      resolve p ∈ st.watched) →
    (processLines resolve st lines).watched = st.watched ∧
    (processLines resolve st lines).addCalls = st.addCalls := by
  induction lines with
  | nil => intro st _; exact ⟨rfl, rfl⟩
  | cons q rest ih =>
    intro st h
    have hq := processLine_covered resolve st q
      (h q (List.mem_cons_self q rest))
    have hrest : ∀ p ∈ rest, classifyLine p = LineClass.dependency →
        resolve p ≠ "" → resolve p ∈ (processLine resolve st q).watched := by
      intro p hp hdep hne
      rw [hq.1]
      exact h p (List.mem_cons_of_mem q hp) hdep hne
    obtain ⟨h1, h2⟩ := ih (processLine resolve st q) hrest
    exact ⟨by rw [show processLines resolve st (q :: rest) =
        processLines resolve (processLine resolve st q) rest from rfl, h1, hq.1],
      by rw [show processLines resolve st (q :: rest) =
        processLines resolve (processLine resolve st q) rest from rfl, h2, hq.2]⟩

/-- The run invariant behind "Add at most once": every directory in the
`watcher.Add` log is watched, and the log has no duplicates. -/
theorem processLines_add_inv (resolve : String → String)
    (lines : List String) : ∀ st : WatchState,
    st.addCalls.Nodup → (∀ d ∈ st.addCalls, d ∈ st.watched) →
    (processLines resolve st lines).addCalls.Nodup ∧
    ∀ d ∈ (processLines resolve st lines).addCalls,
      d ∈ (processLines resolve st lines).watched := by
  induction lines with
  | nil => intro st h1 h2; exact ⟨h1, h2⟩
  | cons q rest ih =>
    intro st h1 h2
    have hstep : (processLine resolve st q).addCalls.Nodup ∧
        ∀ d ∈ (processLine resolve st q).addCalls,
          d ∈ (processLine resolve st q).watched := by
      unfold processLine
      cases hc : classifyLine q
      · exact ⟨h1, h2⟩
      · exact ⟨h1, h2⟩
      · simp only []
        split
        · rename_i hcond
          constructor
          · rw [List.nodup_append]
            refine ⟨h1, List.nodup_singleton _, ?_⟩
            intro d hd hds
            rw [List.mem_singleton] at hds
            exact hcond.2 (hds ▸ h2 d hd)
          · intro d hd
            rcases List.mem_append.mp hd with hl | hr
            · exact List.mem_cons_of_mem _ (h2 d hl)
            · rw [List.mem_singleton] at hr
              subst hr
              exact List.mem_cons_self _ _
        · exact ⟨h1, h2⟩
    exact ih (processLine resolve st q) hstep.1 hstep.2

/-- C10 (amended form is the claim itself; it holds): watch registration is
idempotent and append-only.  Processing the same output twice changes neither
the watched set nor the `watcher.Add` log after the first pass; the `Add` log
never repeats a directory (each directory is registered at most once per
run); the watched set only ever grows, and the `Add` log of an earlier state
is a prefix of the later one (nothing is ever removed). -/
theorem watchListedPackages_discipline (resolve : String → String)
    (st : WatchState) (output : String) (hnd : st.addCalls.Nodup)
    (hsub : ∀ d ∈ st.addCalls, d ∈ st.watched) :
    (watchListedPackages resolve (watchListedPackages resolve st output)
        output).watched = (watchListedPackages resolve st output).watched ∧
    (watchListedPackages resolve (watchListedPackages resolve st output)
        output).addCalls = (watchListedPackages resolve st output).addCalls ∧
    (watchListedPackages resolve st output).addCalls.Nodup ∧
    st.watched ⊆ (watchListedPackages resolve st output).watched ∧
    ∃ t, (watchListedPackages resolve st output).addCalls = st.addCalls ++ t := by
  have hcov := processLines_all_covered resolve
    (splitLines (goTrimSpace output)) st
  have hfix := processLines_covered_fix resolve (splitLines (goTrimSpace output))
    (processLines resolve st (splitLines (goTrimSpace output)))
    (fun p hp hdep hne => hcov p hp hdep hne)
  refine ⟨hfix.1, hfix.2, ?_, ?_, ?_⟩
  · exact (processLines_add_inv resolve (splitLines (goTrimSpace output)) st
      hnd hsub).1
  · exact processLines_watched_mono resolve (splitLines (goTrimSpace output)) st
  · exact processLines_addCalls_extends resolve (splitLines (goTrimSpace output)) st

/-- Concrete check of `watchListedPackages_discipline`. -/
theorem watchListedPackages_discipline_witness :
    (watchListedPackages (fun p => String.append "/src/" p)
        (watchListedPackages (fun p => String.append "/src/" p) ⟨[], [], []⟩
          "a\nb\na") "a\nb\na").watched =
      (watchListedPackages (fun p => String.append "/src/" p) ⟨[], [], []⟩
        "a\nb\na").watched ∧
    (watchListedPackages (fun p => String.append "/src/" p)
        (watchListedPackages (fun p => String.append "/src/" p) ⟨[], [], []⟩
          "a\nb\na") "a\nb\na").addCalls =
      (watchListedPackages (fun p => String.append "/src/" p) ⟨[], [], []⟩
        "a\nb\na").addCalls ∧
    (watchListedPackages (fun p => String.append "/src/" p) ⟨[], [], []⟩
        "a\nb\na").addCalls.Nodup ∧
    WatchState.watched ⟨[], [], []⟩ ⊆
      (watchListedPackages (fun p => String.append "/src/" p) ⟨[], [], []⟩
        "a\nb\na").watched ∧
    ∃ t, (watchListedPackages (fun p => String.append "/src/" p) ⟨[], [], []⟩
        "a\nb\na").addCalls = WatchState.addCalls ⟨[], [], []⟩ ++ t :=
  watchListedPackages_discipline (fun p => String.append "/src/" p) ⟨[], [], []⟩
    "a\nb\na" (by simp) (by simp)

/-- C8 counterexample: the empty line is produced by the split (here from the
output `"a\n\nb"`), satisfies the claim's "empty/whitespace" condition, yet
the loop drops it silently — it is not echoed to standard error (the claim
says every such line is echoed). -/
theorem classifyLine_empty_not_echoed :
    "" ∈ splitLines (goTrimSpace "a\n\nb") ∧
    goTrimSpace "" = "" ∧
    classifyLine "" = LineClass.silentSkip ∧
    classifyLine "" ≠ LineClass.echoSkip ∧
    (processLine (fun _ => "/d") ⟨[], [], []⟩ "").stderrLog = [] := by
  refine ⟨by decide, by decide, by decide, by decide, by decide⟩

/-- C8 (amended): an empty line is skipped with no echo and no watch
handling; a non-empty line beginning with `"# "`, `"ld:"`, `"go:"` or
consisting only of white space is echoed unchanged to standard error and gets
no directory resolution or watch addition; every other line is treated as a
dependency identifier (and is not echoed). -/
theorem processLine_classification (resolve : String → String)
    (st : WatchState) (p : String) :
    (p = "" → processLine resolve st p = st) ∧
    (p ≠ "" →
      (strStartsWith p "# " = true ∨ strStartsWith p "ld:" = true ∨
        goTrimSpace p = "" ∨ strStartsWith p "go:" = true) →
      processLine resolve st p = { st with stderrLog := st.stderrLog ++ [p] }) ∧
    (p ≠ "" → strStartsWith p "# " = false → strStartsWith p "ld:" = false →
      goTrimSpace p ≠ "" → strStartsWith p "go:" = false →
      classifyLine p = LineClass.dependency ∧
      (processLine resolve st p).stderrLog = st.stderrLog) := by
  refine ⟨?_, ?_, ?_⟩
  · intro hp
    unfold processLine classifyLine
    rw [if_pos hp]
  · intro hp hcond
    have hcls : classifyLine p = LineClass.echoSkip := by
      unfold classifyLine
      rw [if_neg hp, if_pos]
      rcases hcond with h | h | h | h <;> simp [h]
    unfold processLine
    rw [hcls]
  · intro hp h1 h2 h3 h4
    have hcls : classifyLine p = LineClass.dependency := by
      unfold classifyLine
      rw [if_neg hp, if_neg]
      simp [h1, h2, h3, h4]
    refine ⟨hcls, ?_⟩
    unfold processLine
    rw [hcls]
    simp only []
    split
    · rfl
    · rfl

/-- Concrete check of `processLine_classification`. -/
theorem processLine_classification_witness :
    (" x" = "" → processLine (fun _ => "/d") ⟨[], [], []⟩ " x" = ⟨[], [], []⟩) ∧
    (" x" ≠ "" →
      (strStartsWith " x" "# " = true ∨ strStartsWith " x" "ld:" = true ∨
        goTrimSpace " x" = "" ∨ strStartsWith " x" "go:" = true) →
      processLine (fun _ => "/d") ⟨[], [], []⟩ " x" =
        { (⟨[], [], []⟩ : WatchState) with
            stderrLog := WatchState.stderrLog ⟨[], [], []⟩ ++ [" x"] }) ∧
    (" x" ≠ "" → strStartsWith " x" "# " = false →
      strStartsWith " x" "ld:" = false → goTrimSpace " x" ≠ "" →
      strStartsWith " x" "go:" = false →
      classifyLine " x" = LineClass.dependency ∧
      (processLine (fun _ => "/d") ⟨[], [], []⟩ " x").stderrLog =
        WatchState.stderrLog ⟨[], [], []⟩) :=
  processLine_classification (fun _ => "/d") ⟨[], [], []⟩ " x"

/-! ## The debouncer (`debounceCallable`, main.go:447-464)

The returned closure keeps at most one armed timer.  A trigger with no armed
timer arms one for `interval` later and spawns the goroutine that, when the
timer expires, disarms it and calls `f`; a trigger with an armed timer resets
its deadline to `interval` from now.  We model a run on discrete time: the
state is the armed deadline (`Option Nat`, `none` = no timer, the "at most
one pending invocation" of the source made explicit by the type), triggers
are processed in time order, and a deadline that has passed by the next
trigger (or by the end of the run) fires `f` at that deadline. -/

/-- Process the remaining (time-ordered) trigger instants starting from an
armed-deadline state, returning the instants at which `f` runs.  In both
trigger branches the new deadline is `t + i`: `time.NewTimer(interval)` at
main.go:452 and `timer.Reset(interval)` at main.go:461. -/
def debRun (i : Nat) : Option Nat → List Nat → List Nat
  | none, [] => []
  | some d, [] => [d]
  | none, t :: ts => debRun i (some (t + i)) ts
  | some d, t :: ts =>
    if d ≤ t then d :: debRun i (some (t + i)) ts
    else debRun i (some (t + i)) ts

/-- The instants at which the wrapped action `f` runs when `debounceCallable`'s
closure is triggered at the given (strictly increasing) instants. -/
def debounceRun (i : Nat) (ts : List Nat) : List Nat :=
  debRun i none ts

theorem debRun_mem (i : Nat) : ∀ (ts : List Nat), List.Sorted (· < ·) ts →
    ∀ d u, (u ∈ debRun i (some d) ts ↔
      (u = d ∧ ∀ t' ∈ ts, d ≤ t') ∨
      ∃ t ∈ ts, u = t + i ∧ ∀ t' ∈ ts, t < t' → t + i ≤ t') := by
  intro ts
  induction ts with
  | nil =>
    intro _ d u
    simp [debRun]
  | cons t rest ih =>
    intro hs d u
    rw [List.sorted_cons] at hs
    obtain ⟨hlt, hsr⟩ := hs
    by_cases hdt : d ≤ t
    · rw [show debRun i (some d) (t :: rest) =
        d :: debRun i (some (t + i)) rest from by simp [debRun, hdt]]
      rw [List.mem_cons, ih hsr (t + i) u]
      constructor
      · rintro (hud | ⟨hu, hcond⟩ | ⟨s, hmem, hu, hcond⟩)
        · refine Or.inl ⟨hud, ?_⟩
          intro t' ht'
          rcases List.mem_cons.mp ht' with h | h
          · omega
          · have := hlt t' h
            omega
        · refine Or.inr ⟨t, List.mem_cons_self t rest, hu, ?_⟩
          intro t' ht' htt'
          rcases List.mem_cons.mp ht' with h | h
          · omega
          · exact hcond t' h
        · refine Or.inr ⟨s, List.mem_cons_of_mem t hmem, hu, ?_⟩
          intro t' ht' hst'
          rcases List.mem_cons.mp ht' with h | h
          · have := hlt s hmem
            omega
          · exact hcond t' h hst'
      · rintro (⟨hud, _⟩ | ⟨s, hmem, hu, hcond⟩)
        · exact Or.inl hud
        · rcases List.mem_cons.mp hmem with h | h
          · subst h
            refine Or.inr (Or.inl ⟨hu, ?_⟩)
            intro t' ht'
            exact hcond t' (List.mem_cons_of_mem s ht') (hlt t' ht')
          · refine Or.inr (Or.inr ⟨s, h, hu, ?_⟩)
            intro t' ht' hst'
            exact hcond t' (List.mem_cons_of_mem t ht') hst'
    · rw [show debRun i (some d) (t :: rest) =
        debRun i (some (t + i)) rest from by simp [debRun, hdt]]
      rw [ih hsr (t + i) u]
      constructor
      · rintro (⟨hu, hcond⟩ | ⟨s, hmem, hu, hcond⟩)
        · refine Or.inr ⟨t, List.mem_cons_self t rest, hu, ?_⟩
          intro t' ht' htt'
          rcases List.mem_cons.mp ht' with h | h
          · omega
          · exact hcond t' h
        · refine Or.inr ⟨s, List.mem_cons_of_mem t hmem, hu, ?_⟩
          intro t' ht' hst'
          rcases List.mem_cons.mp ht' with h | h
          · have := hlt s hmem
            omega
          · exact hcond t' h hst'
      · rintro (⟨hud, hcond⟩ | ⟨s, hmem, hu, hcond⟩)
        · have := hcond t (List.mem_cons_self t rest)
          omega
        · rcases List.mem_cons.mp hmem with h | h
          · subst h
            refine Or.inl ⟨hu, ?_⟩
            intro t' ht'
            exact hcond t' (List.mem_cons_of_mem s ht') (hlt t' ht')
          · refine Or.inr ⟨s, h, hu, ?_⟩
            intro t' ht' hst'
            exact hcond t' (List.mem_cons_of_mem t ht') hst'

/-- A fire instant is a burst-ending trigger plus the interval, and
conversely. -/
theorem debounceRun_mem (i : Nat) (ts : List Nat)
    (hs : List.Sorted (· < ·) ts) (u : Nat) :
    u ∈ debounceRun i ts ↔
      ∃ t ∈ ts, u = t + i ∧ ∀ t' ∈ ts, t < t' → t + i ≤ t' := by
  cases ts with
  | nil => simp [debounceRun, debRun]
  | cons t rest =>
    rw [List.sorted_cons] at hs
    obtain ⟨hlt, hsr⟩ := hs
    rw [show debounceRun i (t :: rest) = debRun i (some (t + i)) rest from rfl]
    rw [debRun_mem i rest hsr (t + i) u]
    constructor
    · rintro (⟨hu, hcond⟩ | ⟨s, hmem, hu, hcond⟩)
      · refine ⟨t, List.mem_cons_self t rest, hu, ?_⟩
        intro t' ht' htt'
        rcases List.mem_cons.mp ht' with h | h
        · omega
        · exact hcond t' h
      · refine ⟨s, List.mem_cons_of_mem t hmem, hu, ?_⟩
        intro t' ht' hst'
        rcases List.mem_cons.mp ht' with h | h
        · have := hlt s hmem
          omega
        · exact hcond t' h hst'
    · rintro ⟨s, hmem, hu, hcond⟩
      rcases List.mem_cons.mp hmem with h | h
      · subst h
        refine Or.inl ⟨hu, ?_⟩
        intro t' ht'
        exact hcond t' (List.mem_cons_of_mem s ht') (hlt t' ht')
      · refine Or.inr ⟨s, h, hu, ?_⟩
        intro t' ht' hst'
        exact hcond t' (List.mem_cons_of_mem t ht') hst'

theorem debRun_sorted (i : Nat) (hi : 0 < i) : ∀ (ts : List Nat),
    List.Sorted (· < ·) ts → ∀ d, List.Sorted (· < ·) (debRun i (some d) ts) := by
  intro ts
  induction ts with
  | nil =>
    intro _ d
    simp [debRun]
  | cons t rest ih =>
    intro hs d
    rw [List.sorted_cons] at hs
    obtain ⟨hlt, hsr⟩ := hs
    by_cases hdt : d ≤ t
    · rw [show debRun i (some d) (t :: rest) =
        d :: debRun i (some (t + i)) rest from by simp [debRun, hdt]]
      rw [List.sorted_cons]
      refine ⟨?_, ih hsr (t + i)⟩
      intro u hu
      rcases (debRun_mem i rest hsr (t + i) u).mp hu with ⟨hu', _⟩ |
        ⟨s, hmem, hu', _⟩
      · omega
      · have := hlt s hmem
        omega
    · rw [show debRun i (some d) (t :: rest) =
        debRun i (some (t + i)) rest from by simp [debRun, hdt]]
      exact ih hsr (t + i)

/-- For every trigger `t` there is a burst-ending trigger `m ≥ t`: no later
trigger occurs within `i` after `m`, and every instant from `t + i` up to
(but excluding) `m + i` has some trigger in the `i`-window before it. -/
theorem debounce_burst (i : Nat) : ∀ (ts : List Nat),
    List.Sorted (· < ·) ts → ∀ t ∈ ts,
    ∃ m ∈ ts, t ≤ m ∧ (∀ t' ∈ ts, m < t' → m + i ≤ t') ∧
      ∀ v, t + i ≤ v → v < m + i → ∃ s ∈ ts, v - i < s ∧ s < v := by
  intro ts
  induction ts with
  | nil =>
    intro _ t ht
    exact absurd ht (List.not_mem_nil t)
  | cons t₀ rest ih =>
    intro hs t ht
    rw [List.sorted_cons] at hs
    obtain ⟨hlt, hsr⟩ := hs
    rcases List.mem_cons.mp ht with hteq | htr
    · subst hteq
      cases rest with
      | nil =>
        refine ⟨t, List.mem_cons_self t [], le_refl t, ?_, ?_⟩
        · intro t' ht' htt'
          rcases List.mem_cons.mp ht' with h | h
          · omega
          · exact absurd h (List.not_mem_nil t')
        · intro v h1 h2
          omega
      | cons t₁ rest' =>
        by_cases hgap : t + i ≤ t₁
        · refine ⟨t, List.mem_cons_self t (t₁ :: rest'), le_refl t, ?_, ?_⟩
          · intro t' ht' htt'
            rcases List.mem_cons.mp ht' with h | h
            · omega
            · rcases List.mem_cons.mp h with h' | h'
              · omega
              · rw [List.sorted_cons] at hsr
                have := hsr.1 t' h'
                omega
          · intro v h1 h2
            omega
        · obtain ⟨m, hm, ht1m, hcond, hfirst⟩ :=
            ih hsr t₁ (List.mem_cons_self t₁ rest')
          have ht01 : t < t₁ := hlt t₁ (List.mem_cons_self t₁ rest')
          refine ⟨m, List.mem_cons_of_mem t hm, by omega, ?_, ?_⟩
          · intro t' ht' hmt'
            rcases List.mem_cons.mp ht' with h | h
            · omega
            · exact hcond t' h hmt'
          · intro v h1 h2
            by_cases hv : t₁ + i ≤ v
            · obtain ⟨s, hsmem, h3, h4⟩ := hfirst v hv h2
              exact ⟨s, List.mem_cons_of_mem t hsmem, h3, h4⟩
            · refine ⟨t₁, List.mem_cons_of_mem t (List.mem_cons_self t₁ rest'),
                ?_, ?_⟩ <;> omega
    · obtain ⟨m, hm, htm, hcond, hfirst⟩ := ih hsr t htr
      have ht0m : t₀ < m := hlt m hm
      refine ⟨m, List.mem_cons_of_mem t₀ hm, htm, ?_, ?_⟩
      · intro t' ht' hmt'
        rcases List.mem_cons.mp ht' with h | h
        · omega
        · exact hcond t' h hmt'
      · intro v h1 h2
        obtain ⟨s, hsmem, h3, h4⟩ := hfirst v h1 h2
        exact ⟨s, List.mem_cons_of_mem t₀ hsmem, h3, h4⟩

/-- C4: for strictly time-ordered triggers, (i) `f` runs at `u` exactly when
`u = t + interval` for a trigger `t` with no further trigger less than
`interval` after it (a later trigger re-arms a fresh cycle, including one that
arrives while `f` runs, since firing disarms the timer); (ii) `f` runs at most
once at any instant; (iii) for every trigger `t`, `f` runs at the first
instant `u ≥ t + interval` during which no further trigger arrived in the
preceding `interval`. -/
theorem debounceCallable_contract (i : Nat) (hi : 0 < i) (ts : List Nat)
    (hs : List.Sorted (· < ·) ts) :
    (∀ u, u ∈ debounceRun i ts ↔
      ∃ t ∈ ts, u = t + i ∧ ∀ t' ∈ ts, t < t' → t + i ≤ t') ∧
    (debounceRun i ts).Nodup ∧
    (∀ t ∈ ts, ∃ u ∈ debounceRun i ts, t + i ≤ u ∧
      (∀ s ∈ ts, ¬(u - i < s ∧ s < u)) ∧
      ∀ v, t + i ≤ v → (∀ s ∈ ts, ¬(v - i < s ∧ s < v)) → u ≤ v) := by
  refine ⟨debounceRun_mem i ts hs, ?_, ?_⟩
  · cases ts with
    | nil => exact List.nodup_nil
    | cons t rest =>
      rw [List.sorted_cons] at hs
      exact (debRun_sorted i hi rest hs.2 (t + i)).nodup
  · intro t ht
    obtain ⟨m, hm, htm, hcond, hfirst⟩ := debounce_burst i ts hs t ht
    refine ⟨m + i, (debounceRun_mem i ts hs (m + i)).mpr
      ⟨m, hm, rfl, hcond⟩, by omega, ?_, ?_⟩
    · intro s hsmem hbad
      have := hcond s hsmem (by omega)
      omega
    · intro v h1 h2
      by_contra hlt'
      obtain ⟨s, hsmem, h3, h4⟩ := hfirst v h1 (by omega)
      exact h2 s hsmem ⟨h3, h4⟩

/-- Concrete check of `debounceCallable_contract` at interval 100 with
triggers at 0, 50 and 200 (`f` fires at 150 and at 300). -/
theorem debounceCallable_contract_witness :
    (∀ u, u ∈ debounceRun 100 [0, 50, 200] ↔
      ∃ t ∈ [0, 50, 200], u = t + 100 ∧
        ∀ t' ∈ [0, 50, 200], t < t' → t + 100 ≤ t') ∧
    (debounceRun 100 [0, 50, 200]).Nodup ∧
    (∀ t ∈ [0, 50, 200], ∃ u ∈ debounceRun 100 [0, 50, 200], t + 100 ≤ u ∧
      (∀ s ∈ [0, 50, 200], ¬(u - 100 < s ∧ s < u)) ∧
      ∀ v, t + 100 ≤ v →
        (∀ s ∈ [0, 50, 200], ¬(v - 100 < s ∧ s < v)) → u ≤ v) :=
  debounceCallable_contract 100 (by decide) [0, 50, 200] (by decide)

/-! ## The rebuild sequence (`rebuild`, main.go:246-348)

`rebuild` runs with the gate held exclusively.  Each external call it makes
is modelled by a field of `RebuildEnv` recording that call's outcome for this
rebuild: the `go list` invocation (main.go:259), the `go build` invocation
(main.go:279), the `service.Start()` call (main.go:301) and the boot race
(child exit / health probe / timeout, main.go:307-346).  Times are instants
on a `Nat` clock starting when the child is launched. -/

/-- Outcome of the `go build` invocation (main.go:279-290): a non-zero exit
with captured combined output (`*exec.ExitError`), any other invocation
error, or success with the `-v` output. -/
inductive BuildRes where
  | success (output : String)
  | exitError (diagnostics : String)
  | otherError (msg : String)
  deriving DecidableEq, Repr

/-- Outcome of the `go list` invocation (main.go:259-267). -/
inductive ListRes where
  | ok (output : String)
  | failed (msg : String)
  deriving DecidableEq, Repr

/-- Instants (relative to child launch) of the two boot events; an event
that never happens is modelled by an instant beyond every other one. -/
structure BootTimes where
  exitAt : Nat
  healthyAt : Nat
  deriving DecidableEq, Repr

/-- Outcomes of the external calls a single `rebuild` makes. -/
structure RebuildEnv where
  listRes : ListRes
  buildRes : BuildRes
  startOk : Bool
  boot : BootTimes
  /-- Directory resolution for dependency lines (main.go:390-412). -/
  resolve : String → String

/-- The immutable configuration resolved by `mustParseArgs` (main.go:466-561):
target package, resolved health-check URL, health-check timeout (and its
printed form), and the service port placed in the child's `PORT`. -/
structure Config where
  packageName : String
  healthURL : String
  timeoutDur : Nat
  timeoutStr : String
  servicePort : String
  deriving DecidableEq, Repr

/-- Lifecycle of the child process as the controller sees it.  Note that
`stopRunningService` (main.go:351-368) only sends SIGTERM and returns at
once; the escalation to SIGKILL after 10 s and the reaping happen in a
background goroutine, so a signaled child may still be running. -/
inductive ChildState where
  /-- No child process exists (never started, or exited and reaped). -/
  | idle
  /-- A started child; no stop has been requested. -/
  | alive
  /-- SIGTERM has been sent (main.go:353); the child may still be running
  until the background goroutine's grace period ends (main.go:354-366). -/
  | signaled
  deriving DecidableEq, Repr

/-- The function `stopRunningService` (main.go:351-368): if a child handle
exists, send it SIGTERM and return immediately; killing and reaping are left
to a background goroutine. -/
def stopRunningService : ChildState → ChildState
  | ChildState.idle => ChildState.idle
  | _ => ChildState.signaled

/-- The controller state `rebuild` mutates: `builtOnce`, `errorResponse`,
the watch state, and the child-process lifecycle state. -/
structure CtrlState where
  builtOnce : Bool
  errorResponse : Option String
  watch : WatchState
  child : ChildState
  deriving DecidableEq, Repr

/-- Which arm of the boot `select` (main.go:332-346) runs. -/
inductive BootResult where
  | exitedFirst
  | timedOutFirst
  | healthy
  deriving DecidableEq, Repr

/-- The boot `select`: the earliest of child exit (`exitCh`), the
`time.After` timeout and the first 2xx (`listeningCh`) wins.  Go's `select`
resolves ties randomly; this model fixes a deterministic tie order (exit,
then timeout).  Theorems about the race use strict inequalities, so they do
not depend on the tie order. -/
def selectBoot (exitAt healthyAt timeout : Nat) : BootResult :=
  if exitAt ≤ healthyAt ∧ exitAt ≤ timeout then BootResult.exitedFirst
  else if timeout ≤ exitAt ∧ timeout ≤ healthyAt then BootResult.timedOutFirst
  else BootResult.healthy

/-- The boot-exit error body (main.go:334-335). -/
def bootExitBody (healthURL : String) : String :=
  "lrt: error: service unexpectedly exited before responding to " ++
    healthURL ++ "\n" ++
    "     hint: check the terminal output to see if any errors were logged.\n"

/-- The boot-timeout error body (main.go:339-341). -/
def bootTimeoutBody (healthURL timeoutStr : String) : String :=
  "lrt: error: service is still not responding on " ++ healthURL ++
    " after " ++ timeoutStr ++ "\n" ++
    "     hint: ensure your service listens on $PORT. For example: http.ListenAndServe(\"localhost:\" + os.Getenv(\"PORT\"), nil)\n" ++
    "           also, check the terminal output to see if any errors were logged.\n"

/-- What the boot `select` assigns to `errorResponse` (main.go:332-346). -/
def bootSetError (healthURL timeoutStr : String) : BootResult → Option String
  | BootResult.exitedFirst => some (bootExitBody healthURL)
  | BootResult.timedOutFirst => some (bootTimeoutBody healthURL timeoutStr)
  | BootResult.healthy => none

/-- Externally visible steps of one `rebuild`, in execution order. -/
inductive CtrlAct where
  /-- The `go list` invocation (main.go:259). -/
  | goList
  /-- The assignment `builtOnce = true` (main.go:273). -/
  | setBuiltOnce
  /-- The assignment `errorResponse = nil` (main.go:274). -/
  | clearError
  /-- The call `stopRunningService()` (main.go:276): SIGTERM is sent to the
  running child; its termination proceeds in the background. -/
  | stopChild
  /-- The `go build` invocation (main.go:279). -/
  | runBuild
  /-- The call `waiter.Wait()` (main.go:295): the previous child has exited
  and been reaped.  Reached only on the build-success path. -/
  | waitReaped
  /-- The call `service.Start()` with `PORT=port` in the environment (main.go:297-301). -/
  | startChild (port : String)
  /-- An assignment of a non-nil `errorResponse`. -/
  | setError (body : String)
  deriving DecidableEq, Repr

/-- Result of one `rebuild`: process termination (`os.Exit`) with a status
code, or a return with the new controller state and, when a child was
started, the `PORT` value it was given. -/
inductive RebuildOut where
  | fatal (code : Nat)
  | done (s : CtrlState) (spawnedPort : Option String)
  deriving DecidableEq, Repr

/-- The dependency-discovery step (main.go:258-271): on first run or after a
failed build, run `go list`; any error there is fatal; otherwise watch the
package name and every listed dependency. -/
def rebuildStage1 (cfg : Config) (env : RebuildEnv) (s : CtrlState) :
    Option CtrlState :=
  if s.builtOnce = false ∨ s.errorResponse ≠ none then
    match env.listRes with
    | ListRes.failed _ => none
    | ListRes.ok out =>
      let w₁ := watchListedPackages env.resolve s.watch cfg.packageName
      some { s with watch := watchListedPackages env.resolve w₁ out }
  else some s

/-- main.go:273-276: flip `builtOnce`, clear `errorResponse`, initiate the
stop of the running child (`stopRunningService` only signals; it does not
wait).  This is the state in which the `go build` command is then invoked. -/
def rebuildStage2 (s : CtrlState) : CtrlState :=
  { s with builtOnce := true, errorResponse := none, child := stopRunningService s.child }

/-- The function `rebuild` (main.go:246-348), returning its outcome and the list of steps
it performed. -/
def rebuild (cfg : Config) (env : RebuildEnv) (s : CtrlState) :
    RebuildOut × List CtrlAct :=
  let listTrace : List CtrlAct :=
    if s.builtOnce = false ∨ s.errorResponse ≠ none then [CtrlAct.goList]
    else []
  match rebuildStage1 cfg env s with
  | none => (RebuildOut.fatal 1, listTrace)
  | some s₁ =>
    let s₂ := rebuildStage2 s₁
    let preTrace := listTrace ++ [CtrlAct.setBuiltOnce, CtrlAct.clearError,
      CtrlAct.stopChild, CtrlAct.runBuild]
    match env.buildRes with
    | BuildRes.otherError _ => (RebuildOut.fatal 1, preTrace)
    | BuildRes.exitError d =>
      (RebuildOut.done { s₂ with errorResponse := some d } none,
        preTrace ++ [CtrlAct.setError d])
    | BuildRes.success out =>
      let s₃ := { s₂ with watch := watchListedPackages env.resolve s₂.watch out }
      if env.startOk = false then (RebuildOut.fatal 1, preTrace)
      else
        let r := selectBoot env.boot.exitAt env.boot.healthyAt cfg.timeoutDur
        let er := bootSetError cfg.healthURL cfg.timeoutStr r
        let newChild : ChildState :=
          match r with
          | BootResult.exitedFirst => ChildState.idle
          | _ => ChildState.alive
        let errTrace : List CtrlAct :=
          match er with
          | some b => [CtrlAct.setError b]
          | none => []
        (RebuildOut.done { s₃ with child := newChild, errorResponse := er }
          (some cfg.servicePort),
          preTrace ++ [CtrlAct.waitReaped, CtrlAct.startChild cfg.servicePort] ++
            errTrace)

/-- Shared sample configuration for concrete checks. -/
def sampleCfg : Config :=
  ⟨".", "http://localhost:53000/", 10, "10s", "4000"⟩

/-- Sample environment: build fails with diagnostics `"boom"`. -/
def sampleEnvBuildFail : RebuildEnv :=
  { listRes := ListRes.ok "", buildRes := BuildRes.exitError "boom",
    startOk := true, boot := ⟨0, 0⟩, resolve := fun _ => "" }

/-- Sample environment: build succeeds and the child becomes healthy. -/
def sampleEnvOk : RebuildEnv :=
  { listRes := ListRes.ok "", buildRes := BuildRes.success "",
    startOk := true, boot := ⟨100, 0⟩, resolve := fun _ => "" }

/-- Sample environment: build succeeds, the probe never succeeds, and the
child exits only after the 10-unit health-check timeout. -/
def sampleEnvLateExit : RebuildEnv :=
  { listRes := ListRes.ok "", buildRes := BuildRes.success "",
    startOk := true, boot := ⟨15, 1000000⟩, resolve := fun _ => "" }

/-- Sample state: a healthy generation is running (`builtOnce`, no error). -/
def sampleReadyState : CtrlState :=
  ⟨true, none, ⟨[], [], []⟩, ChildState.alive⟩

/-- C3: every rebuild clears `errorResponse` (the state handed to the build
step has it `nil`); a build that exits non-zero with diagnostics makes the
rebuild return — not terminate the process — with `errorResponse` set to
exactly the captured diagnostics (which thus remain the 502 body until the
next rebuild), while a non-exit invocation error of the build command
terminates the process with status 1. -/
theorem rebuild_error_discipline (cfg : Config) (env : RebuildEnv)
    (s s₁ : CtrlState) (h₁ : rebuildStage1 cfg env s = some s₁) :
    (rebuildStage2 s₁).errorResponse = none ∧
    (∀ d, env.buildRes = BuildRes.exitError d →
      (rebuild cfg env s).1 =
        RebuildOut.done { rebuildStage2 s₁ with errorResponse := some d }
          none) ∧
    (∀ m, env.buildRes = BuildRes.otherError m →
      (rebuild cfg env s).1 = RebuildOut.fatal 1) := by
  refine ⟨rfl, ?_, ?_⟩
  · intro d hd
    simp [rebuild, h₁, hd]
  · intro m hm
    simp [rebuild, h₁, hm]

/-- Concrete check of `rebuild_error_discipline`. -/
theorem rebuild_error_discipline_witness :
    (rebuildStage2 sampleReadyState).errorResponse = none ∧
    (∀ d, sampleEnvBuildFail.buildRes = BuildRes.exitError d →
      (rebuild sampleCfg sampleEnvBuildFail sampleReadyState).1 =
        RebuildOut.done
          { rebuildStage2 sampleReadyState with errorResponse := some d }
          none) ∧
    (∀ m, sampleEnvBuildFail.buildRes = BuildRes.otherError m →
      (rebuild sampleCfg sampleEnvBuildFail sampleReadyState).1 =
        RebuildOut.fatal 1) :=
  rebuild_error_discipline sampleCfg sampleEnvBuildFail sampleReadyState
    sampleReadyState rfl

/-- A successful `go list` step does not touch the child state. -/
theorem rebuildStage1_child (cfg : Config) (env : RebuildEnv) (s s₁ : CtrlState)
    (h : rebuildStage1 cfg env s = some s₁) : s₁.child = s.child := by
  unfold rebuildStage1 at h
  by_cases hc : s.builtOnce = false ∨ s.errorResponse ≠ none
  · rw [if_pos hc] at h
    cases hl : env.listRes with
    | failed m =>
      rw [hl] at h
      exact absurd h (by simp)
    | ok out =>
      rw [hl] at h
      simp only [] at h
      injection h with h'
      rw [← h']
  · rw [if_neg hc] at h
    injection h with h'
    rw [← h']

/-- C9 counterexample: a build-failure rebuild from a state with a live child
returns with the previous child merely SIGTERM-signaled — `stopRunningService`
(main.go:351-368) only signals, leaving the SIGKILL escalation and the reaping
to a background goroutine, so the child may still be running — and without
ever draining the wait group (`waiter.Wait()`, main.go:295, is reached only on
the build-success path).  "No child process of any generation is left
running" would require `ChildState.idle` here. -/
theorem stale_child_counterexample :
    (rebuild sampleCfg sampleEnvBuildFail sampleReadyState).1 =
      RebuildOut.done ⟨true, some "boom", ⟨[], [], []⟩, ChildState.signaled⟩
        none ∧
    ChildState.signaled ≠ ChildState.idle ∧
    CtrlAct.waitReaped ∉
      (rebuild sampleCfg sampleEnvBuildFail sampleReadyState).2 := by
  refine ⟨by decide, by decide, by decide⟩

/-- C9 (amended): in every rebuild that returns on the build-failure path,
termination of the currently running child was *initiated* (SIGTERM sent)
before the build command was invoked — in the step list the stop immediately
precedes the first build invocation — and no new child is started; however,
the rebuild returns without waiting for the previous child to be reaped
(`waiter.Wait()` is not reached on this path), so the previous child is only
in the `signaled` state and may still be running when the rebuild returns;
requests then receive the 502 diagnostics because `errorResponse` is set,
not because the old generation is already gone. -/
theorem rebuild_stop_initiated_before_build (cfg : Config) (env : RebuildEnv)
    (s : CtrlState) (d : String) (hd : env.buildRes = BuildRes.exitError d)
    (s' : CtrlState) (g : Option String)
    (hdone : (rebuild cfg env s).1 = RebuildOut.done s' g) :
    s'.child = stopRunningService s.child ∧
    (s.child ≠ ChildState.idle → s'.child = ChildState.signaled) ∧
    s'.errorResponse = some d ∧ g = none ∧
    (∀ p, CtrlAct.startChild p ∉ (rebuild cfg env s).2) ∧
    CtrlAct.waitReaped ∉ (rebuild cfg env s).2 ∧
    ∃ pre post, (rebuild cfg env s).2 =
        pre ++ CtrlAct.stopChild :: CtrlAct.runBuild :: post ∧
      CtrlAct.runBuild ∉ pre := by
  cases h₁ : rebuildStage1 cfg env s with
  | none => simp [rebuild, h₁] at hdone
  | some s₁ =>
    rw [show (rebuild cfg env s).1 =
      RebuildOut.done { rebuildStage2 s₁ with errorResponse := some d } none
      from by simp [rebuild, h₁, hd]] at hdone
    injection hdone with hs' hg
    subst hs'
    subst hg
    have hchild : s₁.child = s.child := rebuildStage1_child cfg env s s₁ h₁
    refine ⟨?_, ?_, rfl, rfl, ?_, ?_, ?_⟩
    · show stopRunningService s₁.child = stopRunningService s.child
      rw [hchild]
    · intro hne
      show stopRunningService s₁.child = ChildState.signaled
      rw [hchild]
      cases hc : s.child
      · exact absurd hc hne
      · rfl
      · rfl
    · intro p
      rw [show (rebuild cfg env s).2 =
        (if s.builtOnce = false ∨ s.errorResponse ≠ none
          then [CtrlAct.goList] else []) ++
        [CtrlAct.setBuiltOnce, CtrlAct.clearError, CtrlAct.stopChild,
          CtrlAct.runBuild] ++ [CtrlAct.setError d]
        from by simp [rebuild, h₁, hd]]
      split <;> simp
    · rw [show (rebuild cfg env s).2 =
        (if s.builtOnce = false ∨ s.errorResponse ≠ none
          then [CtrlAct.goList] else []) ++
        [CtrlAct.setBuiltOnce, CtrlAct.clearError, CtrlAct.stopChild,
          CtrlAct.runBuild] ++ [CtrlAct.setError d]
        from by simp [rebuild, h₁, hd]]
      split <;> simp
    · refine ⟨(if s.builtOnce = false ∨ s.errorResponse ≠ none
        then [CtrlAct.goList] else []) ++
        [CtrlAct.setBuiltOnce, CtrlAct.clearError],
        [CtrlAct.setError d], ?_, ?_⟩
      · simp [rebuild, h₁, hd]
      · split <;> simp

/-- Concrete check of `rebuild_stop_initiated_before_build`. -/
theorem rebuild_stop_initiated_before_build_witness :
    (CtrlState.mk true (some "boom") ⟨[], [], []⟩ ChildState.signaled).child =
      stopRunningService sampleReadyState.child ∧
    (sampleReadyState.child ≠ ChildState.idle →
      (CtrlState.mk true (some "boom") ⟨[], [], []⟩
        ChildState.signaled).child = ChildState.signaled) ∧
    (CtrlState.mk true (some "boom") ⟨[], [], []⟩
      ChildState.signaled).errorResponse = some "boom" ∧
    (none : Option String) = none ∧
    (∀ p, CtrlAct.startChild p ∉
      (rebuild sampleCfg sampleEnvBuildFail sampleReadyState).2) ∧
    CtrlAct.waitReaped ∉
      (rebuild sampleCfg sampleEnvBuildFail sampleReadyState).2 ∧
    ∃ pre post, (rebuild sampleCfg sampleEnvBuildFail sampleReadyState).2 =
        pre ++ CtrlAct.stopChild :: CtrlAct.runBuild :: post ∧
      CtrlAct.runBuild ∉ pre :=
  rebuild_stop_initiated_before_build sampleCfg sampleEnvBuildFail
    sampleReadyState "boom" rfl
    (CtrlState.mk true (some "boom") ⟨[], [], []⟩ ChildState.signaled) none
    (by decide)

set_option maxRecDepth 8192 in
/-- C7 counterexample: the child exits before the probe ever succeeds
(`exitAt = 15 < healthyAt`), but only after the 10-unit health-check timeout;
the rebuild then sets `errorResponse` to the boot-timeout body, not the
boot-exit body the claim requires. -/
theorem bootExit_claim_counterexample :
    sampleEnvLateExit.boot.exitAt < sampleEnvLateExit.boot.healthyAt ∧
    (rebuild sampleCfg sampleEnvLateExit sampleReadyState).1 =
      RebuildOut.done
        ⟨true, some (bootTimeoutBody "http://localhost:53000/" "10s"),
          ⟨[], [], []⟩, ChildState.alive⟩ (some "4000") ∧
    some (bootTimeoutBody "http://localhost:53000/" "10s") ≠
      some (bootExitBody "http://localhost:53000/") := by
  refine ⟨by decide, by decide, by decide⟩

/-- C7 (amended): whenever the freshly started child exits before the health
probe succeeds *and before the health-check timeout elapses*, the rebuild
returns with `errorResponse` set to exactly the claimed bytes. -/
theorem rebuild_bootExit_message (cfg : Config) (env : RebuildEnv)
    (s s₁ : CtrlState) (h₁ : rebuildStage1 cfg env s = some s₁)
    (out : String) (hb : env.buildRes = BuildRes.success out)
    (hstart : env.startOk = true)
    (hexit : env.boot.exitAt < env.boot.healthyAt)
    (htime : env.boot.exitAt < cfg.timeoutDur) :
    ∃ s', (rebuild cfg env s).1 = RebuildOut.done s' (some cfg.servicePort) ∧
      s'.errorResponse = some (bootExitBody cfg.healthURL) ∧
      bootExitBody cfg.healthURL =
        "lrt: error: service unexpectedly exited before responding to " ++
          cfg.healthURL ++
          "\n     hint: check the terminal output to see if any errors were logged.\n" := by
  have hsel : selectBoot env.boot.exitAt env.boot.healthyAt cfg.timeoutDur =
      BootResult.exitedFirst := by
    unfold selectBoot
    rw [if_pos ⟨Nat.le_of_lt hexit, Nat.le_of_lt htime⟩]
  refine ⟨⟨(rebuildStage2 s₁).builtOnce, some (bootExitBody cfg.healthURL),
      watchListedPackages env.resolve (rebuildStage2 s₁).watch out,
      ChildState.idle⟩,
    by simp [rebuild, h₁, hb, hstart, hsel, bootSetError], rfl, ?_⟩
  unfold bootExitBody
  rw [String.append_assoc]
  have : ("\n" ++
      "     hint: check the terminal output to see if any errors were logged.\n" :
        String) =
      "\n     hint: check the terminal output to see if any errors were logged.\n" := by
    decide
  rw [this]

/-- Concrete check of `rebuild_bootExit_message` (exit at 3, probe never
succeeds before it, timeout 10). -/
theorem rebuild_bootExit_message_witness :
    ∃ s', (rebuild sampleCfg
        { listRes := ListRes.ok "", buildRes := BuildRes.success "",
          startOk := true, boot := ⟨3, 1000000⟩, resolve := fun _ => "" }
        sampleReadyState).1 = RebuildOut.done s' (some sampleCfg.servicePort) ∧
      s'.errorResponse = some (bootExitBody sampleCfg.healthURL) ∧
      bootExitBody sampleCfg.healthURL =
        "lrt: error: service unexpectedly exited before responding to " ++
          sampleCfg.healthURL ++
          "\n     hint: check the terminal output to see if any errors were logged.\n" :=
  rebuild_bootExit_message sampleCfg
    { listRes := ListRes.ok "", buildRes := BuildRes.success "",
      startOk := true, boot := ⟨3, 1000000⟩, resolve := fun _ => "" }
    sampleReadyState sampleReadyState rfl "" rfl rfl (by decide) (by decide)

/-! ## Service-port allocation across rebuilds (C5)

`generateServiceURL` (main.go:432-443) asks the kernel for a free port once;
`mustParseArgs` (main.go:494-500) calls it exactly once, at startup, when
`-service` is not given.  `rebuild` passes `serviceURL.Port()` — a field of
the immutable parsed configuration — to every child (main.go:298). -/

/-- The port chosen by `generateServiceURL` (main.go:432-443): the
kernel-assigned ephemeral port if the bind-and-close probe works, else `"1"`
prepended to the listen port. -/
def generateServicePortStr (kernelPort : Option Nat) (listenPortStr : String) :
    String :=
  match kernelPort with
  | some p => toString p
  | none => "1" ++ listenPortStr

/-- The `-service` handling of `mustParseArgs` (main.go:496-500): the chosen
service port together with the number of `generateServiceURL` calls made. -/
def parseServicePort (serviceFlagPort : Option String) (kernelPort : Option Nat)
    (listenPortStr : String) : String × Nat :=
  match serviceFlagPort with
  | some p => (p, 0)
  | none => (generateServicePortStr kernelPort listenPortStr, 1)

/-- Controller state at process start. -/
def initialState : CtrlState :=
  ⟨false, none, ⟨[], [], []⟩, ChildState.idle⟩

/-- Run successive rebuilds, collecting for each one the `PORT` value handed
to the child it started (`none` when no child was started); a fatal rebuild
ends the run. -/
def runRebuilds (cfg : Config) : CtrlState → List RebuildEnv →
    List (Option String)
  | _, [] => []
  | s, e :: es =>
    match (rebuild cfg e s).1 with
    | RebuildOut.fatal _ => []
    | RebuildOut.done s' g => g :: runRebuilds cfg s' es

/-- A run of the controller: parse arguments (drawing the service port if
`-service` was not given), then perform the given rebuilds.  Returns the
children's `PORT` values and the total number of `generateServiceURL`
calls. -/
def runLrt (serviceFlagPort : Option String) (kernelPort : Option Nat)
    (listenPortStr pkg healthURL : String) (timeoutDur : Nat)
    (timeoutStr : String) (envs : List RebuildEnv) :
    List (Option String) × Nat :=
  let pd := parseServicePort serviceFlagPort kernelPort listenPortStr
  (runRebuilds ⟨pkg, healthURL, timeoutDur, timeoutStr, pd.1⟩ initialState envs,
    pd.2)

/-- Every child a rebuild starts gets the configured service port. -/
theorem rebuild_spawned_port (cfg : Config) (env : RebuildEnv) (s : CtrlState)
    (s' : CtrlState) (g : Option String)
    (h : (rebuild cfg env s).1 = RebuildOut.done s' g) :
    g = none ∨ g = some cfg.servicePort := by
  unfold rebuild at h
  simp only [] at h
  split at h
  · exact absurd h (by simp)
  · split at h
    · exact absurd h (by simp)
    · injection h with h1 h2
      exact Or.inl h2.symm
    · split at h
      · exact absurd h (by simp)
      · injection h with h1 h2
        exact Or.inr h2.symm

theorem runRebuilds_ports (cfg : Config) : ∀ (envs : List RebuildEnv)
    (s : CtrlState), ∀ x ∈ runRebuilds cfg s envs, ∀ q, x = some q →
    q = cfg.servicePort := by
  intro envs
  induction envs with
  | nil =>
    intro s x hx
    exact absurd hx (List.not_mem_nil x)
  | cons e es ih =>
    intro s x hx q hq
    rw [show runRebuilds cfg s (e :: es) =
      match (rebuild cfg e s).1 with
      | RebuildOut.fatal _ => []
      | RebuildOut.done s' g => g :: runRebuilds cfg s' es from rfl] at hx
    cases h : (rebuild cfg e s).1 with
    | fatal c =>
      rw [h] at hx
      exact absurd hx (List.not_mem_nil x)
    | done s' g =>
      rw [h] at hx
      rcases List.mem_cons.mp hx with hxg | hxr
      · rcases rebuild_spawned_port cfg e s s' g h with hn | hp
        · rw [hxg, hn] at hq
          exact absurd hq (by simp)
        · rw [hxg, hp] at hq
          injection hq with hq'
          exact hq'.symm
      · exact ih s' x hxr q hq

/-- C5 counterexample: with no pinned `-service`, a run making two rebuilds
(each starting a child) calls the port allocator exactly once — not once per
rebuild — and both children receive the same startup-drawn port `"4000"`
(the allocator is never consulted again, so the second child's port is
necessarily equal to the first's, not a fresh draw). -/
theorem port_redraw_counterexample :
    (runLrt none (some 4000) "3000" "." "http://localhost:53000/" 10 "10s"
      [sampleEnvOk, sampleEnvOk]).1 = [some "4000", some "4000"] ∧
    (runLrt none (some 4000) "3000" "." "http://localhost:53000/" 10 "10s"
      [sampleEnvOk, sampleEnvOk]).2 = 1 ∧
    ¬ 2 ≤ (runLrt none (some 4000) "3000" "." "http://localhost:53000/" 10
      "10s" [sampleEnvOk, sampleEnvOk]).2 := by
  refine ⟨by decide, by decide, by decide⟩

/-- C5 (amended): when `-service` is not given, the service port is drawn
from the kernel exactly once, at startup; every child started by any rebuild
of the run receives that same startup-drawn port in `PORT`. -/
theorem servicePort_fixed_across_rebuilds (kernelPort : Option Nat)
    (listenPortStr pkg healthURL : String) (timeoutDur : Nat)
    (timeoutStr : String) (envs : List RebuildEnv) :
    (runLrt none kernelPort listenPortStr pkg healthURL timeoutDur timeoutStr
      envs).2 = 1 ∧
    ∀ x ∈ (runLrt none kernelPort listenPortStr pkg healthURL timeoutDur
      timeoutStr envs).1, ∀ q, x = some q →
      q = generateServicePortStr kernelPort listenPortStr := by
  refine ⟨rfl, ?_⟩
  intro x hx q hq
  exact runRebuilds_ports
    ⟨pkg, healthURL, timeoutDur, timeoutStr,
      generateServicePortStr kernelPort listenPortStr⟩ envs initialState x hx q hq

/-- Concrete check of `servicePort_fixed_across_rebuilds`. -/
theorem servicePort_fixed_across_rebuilds_witness :
    (runLrt none (some 4000) "3000" "." "http://localhost:53000/" 10 "10s"
      [sampleEnvOk]).2 = 1 ∧
    ∀ x ∈ (runLrt none (some 4000) "3000" "." "http://localhost:53000/" 10
      "10s" [sampleEnvOk]).1, ∀ q, x = some q →
      q = generateServicePortStr (some 4000) "3000" :=
  servicePort_fixed_across_rebuilds (some 4000) "3000" "."
    "http://localhost:53000/" 10 "10s" [sampleEnvOk]

/-! ## Signal shutdown (C6; main.go:82-105 and main.go:212-225)

`main` registers `defer os.Remove(tmpFile.Name())` (main.go:86).  The signal
goroutine handles SIGTERM/SIGINT by taking the gate exclusively, stopping the
child, draining the wait group and calling `os.Exit(0)` (main.go:212-225).
In Go, `os.Exit` terminates the process immediately and deferred functions
are not run. -/

/-- Process-level actions on the shutdown path. -/
inductive ShutAct where
  /-- The call `proxyLock.Lock()` (main.go:219). -/
  | lockExclusive
  /-- The call `stopRunningService()` (main.go:222). -/
  | stopChild
  /-- The call `waiter.Wait()` (main.go:223): the child has been reaped. -/
  | waitReaped
  /-- The call `os.Remove(tmpFile.Name())` (deferred at main.go:86). -/
  | removeTmpFile
  /-- The call `os.Exit(code)` (main.go:224). -/
  | exitProcess (code : Nat)
  deriving DecidableEq, Repr

/-- Go execution of a body with registered deferred actions: deferred actions
run (in reverse registration order) only when the body completes normally;
`os.Exit` terminates the process at once and no deferred action runs. -/
def runWithDeferred : List ShutAct → List ShutAct → List ShutAct
  | [], registered => registered.reverse
  | ShutAct.exitProcess c :: _, _ => [ShutAct.exitProcess c]
  | a :: rest, registered => a :: runWithDeferred rest registered

/-- Body of the signal-handler goroutine (main.go:219-224). -/
def shutdownGoroutineBody : List ShutAct :=
  [ShutAct.lockExclusive, ShutAct.stopChild, ShutAct.waitReaped,
    ShutAct.exitProcess 0]

/-- The cleanup `main` registers with `defer` (main.go:86). -/
def mainDeferredActs : List ShutAct :=
  [ShutAct.removeTmpFile]

/-- The process-level actions performed when SIGTERM or SIGINT arrives. -/
def signalShutdownRun : List ShutAct :=
  runWithDeferred shutdownGoroutineBody mainDeferredActs

/-- C6 (code evidence): on SIGTERM/SIGINT the parent acquires the gate
exclusively, stops the child, waits for it to be reaped and exits with
status 0 — but, because `os.Exit` skips deferred functions, `main`'s deferred
removal of the temporary executable never runs: the temp file is *not*
deleted, although the registered `defer` shows that was the intent (it would
run on a normal return, last conjunct). -/
theorem signalShutdown_actions :
    signalShutdownRun =
      [ShutAct.lockExclusive, ShutAct.stopChild, ShutAct.waitReaped,
        ShutAct.exitProcess 0] ∧
    ShutAct.removeTmpFile ∉ signalShutdownRun ∧
    ShutAct.exitProcess 0 ∈ signalShutdownRun ∧
    runWithDeferred [] mainDeferredActs = [ShutAct.removeTmpFile] := by
  refine ⟨by decide, by decide, by decide, by decide⟩

end Lrt
